import Mathlib

/-
Verification development for the Tic Tac Total game (src/main.py).

The game state is the dictionary created at lines 40-54 of main.py and
mutated by the functions check_winner, select_number, make_move,
computer_move, reset_game, get_firebase_game_state and join_room.
Python string constants for players, winners, modes and roles are
embedded as inductive types; the user-facing `message` string and the
Streamlit/Firebase I/O calls (st.rerun, ref.set/ref.get transport) are
not part of the embedded state.  The two `random.choice` calls in
computer_move are embedded by passing two natural numbers rm, rn and
indexing the candidate list at (r % length), so every possible random
outcome corresponds to some choice of rm, rn.
-/

namespace TicTacTotal

/-- Players: the Python strings 'Player 1' and 'Player 2'. -/
inductive Player where
  | P1
  | P2
deriving DecidableEq, Repr

/-- Winner values: the Python strings 'Player 1 wins!' (make_move line 139),
'Player 2 wins!' (line 142), 'Player 2 (Computer) wins!' (computer_move
line 183) and the draw string (lines 145, 186, 192). -/
inductive Winner where
  | player1Wins
  | player2Wins
  | computerWins
  | draw
deriving DecidableEq, Repr

/-- Game modes: the Python strings 'computer' and 'player'. -/
inductive Mode where
  | computer
  | player
deriving DecidableEq, Repr

/-- Multiplayer roles: the Python strings 'host' and 'joiner'. -/
inductive Role where
  | host
  | joiner
deriving DecidableEq, Repr

/-- The game-state dictionary of main.py lines 40-54 (without the
user-facing `message` string). -/
structure GameState where
  board : List (Option Nat)
  current_player : Player
  player1_numbers : List Nat
  player2_numbers : List Nat
  selected_number : Option Nat
  winner : Option Winner
  target1 : Nat
  target2 : Nat
  used_numbers : List Nat
  game_mode : Mode
  room_id : Option String
  player_role : Option Role
deriving DecidableEq, Repr

/-- The initial session state of main.py lines 40-54. -/
def initialGameState : GameState where
  board := List.replicate 9 none
  current_player := Player.P1
  player1_numbers := []
  player2_numbers := []
  selected_number := none
  winner := none
  target1 := 16
  target2 := 14
  used_numbers := []
  game_mode := Mode.computer
  room_id := none
  player_role := none

/-- The eight win lines of check_winner (main.py lines 64-68). -/
def winConditions : List (List Nat) :=
  [[0, 1, 2], [3, 4, 5], [6, 7, 8],
   [0, 3, 6], [1, 4, 7], [2, 5, 8],
   [0, 4, 8], [2, 4, 6]]

/-- check_winner (main.py lines 59-83).  The board is passed explicitly
(the Python reads it from the session state). -/
def check_winner (board : List (Option Nat)) (player_numbers : List Nat)
    (target_sum : Nat) : Bool :=
  winConditions.any fun condition =>
    let line_numbers_on_board := condition.filterMap fun i => board.getD i none
    let player_specific_line :=
      line_numbers_on_board.filter fun num => player_numbers.contains num
    player_specific_line.length == 3 && player_specific_line.sum == target_sum

/-- select_number (main.py lines 86-102): rejects an already used number
(line 92) and a finished game (line 97), otherwise stores the selection. -/
def select_number (number : Nat) (s : GameState) : GameState :=
  if s.used_numbers.contains number then s
  else if s.winner.isSome then s
  else { s with selected_number := some number }

/-- Validation error of select_number: which of the two guard messages
(main.py lines 92-98) fires, if any. -/
inductive SelectError where
  | alreadyUsed
  | gameOver
deriving DecidableEq, Repr

/-- Mirror of select_number's guards (main.py lines 92-98), reporting
which rejection message the call produces. -/
def select_number_error (s : GameState) (number : Nat) : Option SelectError :=
  if s.used_numbers.contains number then some SelectError.alreadyUsed
  else if s.winner.isSome then some SelectError.gameOver
  else none

/-- Validation error of make_move: which of the three guard messages
(main.py lines 111-119) fires, if any. -/
inductive MoveError where
  | gameOver
  | noSelection
  | cellOccupied
deriving DecidableEq, Repr

/-- Mirror of make_move's guards (main.py lines 111-119), in the source's
order: finished game, then missing selection, then occupied cell. -/
def make_move_error (s : GameState) (index : Nat) : Option MoveError :=
  if s.winner.isSome then some MoveError.gameOver
  else if s.selected_number = none then some MoveError.noSelection
  else if (s.board.getD index none).isSome then some MoveError.cellOccupied
  else none

/-- available_moves of computer_move (main.py line 170): indices of the
empty cells. -/
def available_moves (s : GameState) : List Nat :=
  (List.range s.board.length).filter fun i => s.board.getD i none == none

/-- available_numbers of computer_move (main.py line 171): digits 1-9 not
yet in used_numbers. -/
def available_numbers (s : GameState) : List Nat :=
  (List.range' 1 9).filter fun num => !(s.used_numbers.contains num)

/-- computer_move (main.py lines 162-195).  rm and rn resolve the two
random.choice calls (lines 174-175): the chosen element is the candidate
list entry at position rm % length (resp. rn % length), which ranges over
exactly the elements random.choice can return. -/
def computer_move (rm rn : Nat) (s : GameState) : GameState :=
  if s.winner.isSome then s
  else if available_moves s ≠ [] ∧ available_numbers s ≠ [] then
    let move_index := (available_moves s).getD (rm % (available_moves s).length) 0
    let chosen_number := (available_numbers s).getD (rn % (available_numbers s).length) 0
    let s1 : GameState := { s with
      board := s.board.set move_index (some chosen_number),
      used_numbers := s.used_numbers ++ [chosen_number],
      player2_numbers := s.player2_numbers ++ [chosen_number] }
    if check_winner s1.board s1.player2_numbers s1.target2 then
      { s1 with winner := some Winner.computerWins }
    else if s1.used_numbers.length == 9 then
      { s1 with winner := some Winner.draw }
    else
      { s1 with current_player := Player.P1 }
  else
    { s with winner := some Winner.draw }

/-- make_move (main.py lines 105-159).  Guards in source order (lines
111-119), then the board/used/player-sequence updates (lines 124-135),
the fixed-order termination evaluation (lines 137-150), and the dispatch
of lines 152-157: in 'player' mode the Firebase push touches no embedded
state; in 'computer' mode with no winner the computer replies.  rm, rn
resolve the computer's random choices as in computer_move. -/
def make_move (rm rn index : Nat) (s : GameState) : GameState :=
  if s.winner.isSome then s
  else if s.selected_number = none then s
  else if (s.board.getD index none).isSome then s
  else
    let selected_number := s.selected_number.getD 0
    let current_player := s.current_player
    let s1 : GameState := { s with
      board := s.board.set index (some selected_number),
      used_numbers := s.used_numbers ++ [selected_number],
      player1_numbers :=
        if current_player = Player.P1 then s.player1_numbers ++ [selected_number]
        else s.player1_numbers,
      player2_numbers :=
        if current_player = Player.P1 then s.player2_numbers
        else s.player2_numbers ++ [selected_number],
      selected_number := none }
    let s2 : GameState :=
      if check_winner s1.board s1.player1_numbers s1.target1 then
        { s1 with winner := some Winner.player1Wins }
      else if check_winner s1.board s1.player2_numbers s1.target2 then
        { s1 with winner := some Winner.player2Wins }
      else if s1.used_numbers.length == 9 then
        { s1 with winner := some Winner.draw }
      else
        { s1 with current_player :=
            if current_player = Player.P1 then Player.P2 else Player.P1 }
    if s2.game_mode = Mode.computer ∧ s2.winner = none then
      computer_move rm rn s2
    else s2

/-- reset_game (main.py lines 198-224): fresh initial fields, keeping
game_mode, room_id and player_role from the old state (lines 213-215). -/
def reset_game (s : GameState) : GameState where
  board := List.replicate 9 none
  current_player := Player.P1
  player1_numbers := []
  player2_numbers := []
  selected_number := none
  winner := none
  target1 := 16
  target2 := 14
  used_numbers := []
  game_mode := s.game_mode
  room_id := s.room_id
  player_role := s.player_role

/-- get_firebase_game_state (main.py lines 244-263).  firebase_data is
the value fetched from the store (ref.get()); a stored snapshot is the
full game-state dictionary pushed by ref.set, so dict.update replaces
every embedded field.  A falsy room_id (None or the empty string) skips
the sync; a missing remote snapshot clears room_id (line 259). -/
def get_firebase_game_state (firebase_data : Option GameState) (s : GameState) :
    GameState :=
  if s.room_id.getD "" = "" then s
  else
    match firebase_data with
    | some inc => inc
    | none => { s with room_id := none }

/-- join_room (main.py lines 281-304).  An empty room id is rejected
(line 285); an existing room's snapshot replaces the local state via
dict.update, after which room_id, game_mode and player_role are forced
(lines 293-296); a missing room clears room_id (line 300). -/
def join_room (room_id_input : String) (firebase_data : Option GameState)
    (s : GameState) : GameState :=
  if room_id_input = "" then s
  else
    match firebase_data with
    | some inc =>
        { inc with
          room_id := some room_id_input,
          game_mode := Mode.player,
          player_role := some Role.joiner }
    | none => { s with room_id := none }

/-- digits currently on the board: the non-empty cells, in board order. -/
def boardDigits (s : GameState) : List Nat := s.board.filterMap id

/-- boardFull states, in the spec's words, that all 9 cells are occupied. -/
def boardFull (b : List (Option Nat)) : Bool := b.all fun c => c.isSome

/-- lineIsWin states, in the spec's words, that a single line is a win
for a player: all three cells occupied, every occupying value in the
player's placed-digit set, and the three values summing to the target. -/
def lineIsWin (board : List (Option Nat)) (player_numbers : List Nat)
    (target_sum : Nat) (condition : List Nat) : Prop :=
  (∀ i ∈ condition, (board.getD i none).isSome) ∧
  (∀ i ∈ condition, ∀ v, board.getD i none = some v → v ∈ player_numbers) ∧
  (condition.filterMap fun i => board.getD i none).sum = target_sum

/-- The two state invariants claimed in §3 of the spec: a digit is in
used_numbers iff it appears on the board, and the two players' placed
sequences together are a permutation of the non-empty board cells. -/
def InvClaim (s : GameState) : Prop :=
  (∀ d, d ∈ s.used_numbers ↔ d ∈ boardDigits s) ∧
  (s.player1_numbers ++ s.player2_numbers).Perm (boardDigits s)

/-- In-game operations of the state machine (reset excluded): a number
selection, a placement, or a computer move, with their arguments. -/
inductive Op where
  | select (number : Nat)
  | place (rm rn index : Nat)
  | comp (rm rn : Nat)
deriving DecidableEq, Repr

/-- applyOp runs one in-game operation. -/
def applyOp (op : Op) (s : GameState) : GameState :=
  match op with
  | Op.select number => select_number number s
  | Op.place rm rn index => make_move rm rn index s
  | Op.comp rm rn => computer_move rm rn s

/-- applyOps runs a sequence of in-game operations, oldest first. -/
def applyOps (ops : List Op) (s : GameState) : GameState :=
  match ops with
  | [] => s
  | op :: rest => applyOps rest (applyOp op s)

/-- an element picked at position r % length is a member of a nonempty list. -/
theorem getD_mod_mem {α : Type} (l : List α) (d : α) (r : Nat) (h : l ≠ []) :
    l.getD (r % l.length) d ∈ l := by
  have hlen : 0 < l.length := List.length_pos.mpr h
  have hm : r % l.length < l.length := Nat.mod_lt _ hlen
  rw [List.getD_eq_getElem l d hm]
  exact List.getElem_mem hm

/-- setting an empty cell adds exactly that digit to the board's digits. -/
theorem filterMap_id_set_perm (l : List (Option Nat)) :
    ∀ i : Nat, i < l.length → l.getD i none = none →
      ∀ n : Nat, ((l.set i (some n)).filterMap id).Perm (n :: l.filterMap id) := by
  induction l with
  | nil => intro i hi; simp at hi
  | cons a t ih =>
    intro i hi h0 n
    cases i with
    | zero =>
      rw [List.getD_cons_zero] at h0
      subst h0
      simp [List.filterMap_cons]
    | succ j =>
      rw [List.getD_cons_succ] at h0
      simp only [List.length_cons, Nat.succ_lt_succ_iff] at hi
      have hperm := ih j hi h0 n
      cases a with
      | none => simpa [List.filterMap_cons] using hperm
      | some b =>
        rw [List.set_cons_succ]
        simp only [List.filterMap_cons, id]
        exact (hperm.cons b).trans (List.Perm.swap n b _)

/-- a board is full exactly when its digit list is as long as the board. -/
theorem boardFull_iff_length (b : List (Option Nat)) :
    boardFull b = true ↔ (b.filterMap id).length = b.length := by
  induction b with
  | nil => simp [boardFull]
  | cons a t ih =>
    cases a with
    | none =>
      simp only [boardFull, List.all_cons, Option.isSome_none, Bool.false_and,
        List.filterMap_cons, List.length_cons, id]
      constructor
      · intro h; cases h
      · intro h
        have := List.length_filterMap_le id t
        omega
    | some v =>
      simp only [boardFull, List.all_cons, Option.isSome_some, Bool.true_and,
        List.filterMap_cons, List.length_cons, id] at ih ⊢
      rw [ih]
      omega

/-- a filterMap keeps the full length exactly when it drops nothing. -/
theorem length_filterMap_eq_iff {α β : Type} (f : α → Option β) (c : List α) :
    (c.filterMap f).length = c.length ↔ ∀ i ∈ c, (f i).isSome = true := by
  induction c with
  | nil => simp
  | cons a t ih =>
    cases hfa : f a with
    | none =>
      simp only [List.filterMap_cons, hfa, List.length_cons]
      constructor
      · intro h; have := List.length_filterMap_le f t; omega
      · intro h
        have ha := h a (by simp)
        rw [hfa] at ha
        simp at ha
    | some b =>
      simp only [List.filterMap_cons, hfa, List.length_cons, List.mem_cons]
      constructor
      · intro h i hi
        rcases hi with rfl | hi
        · rw [hfa]; rfl
        · exact (ih.mp (by omega)) i hi
      · intro h
        have := ih.mpr fun i hi => h i (Or.inr hi)
        omega

/-- the per-line test of check_winner agrees with the spec's reading of a
winning line (full occupancy, ownership of all three values, target sum). -/
theorem line_check_iff (board : List (Option Nat)) (nums : List Nat) (t : Nat)
    (c : List Nat) (hc : c.length = 3) :
    (((c.filterMap fun i => board.getD i none).filter fun num =>
        nums.contains num).length = 3 ∧
     ((c.filterMap fun i => board.getD i none).filter fun num =>
        nums.contains num).sum = t) ↔
    lineIsWin board nums t c := by
  set L := c.filterMap fun i => board.getD i none with hL
  have hPL : (L.filter fun num => nums.contains num).Sublist L :=
    List.filter_sublist L
  constructor
  · rintro ⟨hlen, hsum⟩
    have hLle : L.length ≤ 3 := hc ▸ List.length_filterMap_le _ c
    have hPle : (L.filter fun num => nums.contains num).length ≤ L.length :=
      hPL.length_le
    have hL3 : L.length = 3 := by omega
    have hPeq : L.filter (fun num => nums.contains num) = L :=
      hPL.eq_of_length (by omega)
    refine ⟨?_, ?_, ?_⟩
    · exact (length_filterMap_eq_iff _ c).mp (hL3.trans hc.symm)
    · intro i hi v hv
      have hvL : v ∈ L := List.mem_filterMap.mpr ⟨i, hi, hv⟩
      have hvP : v ∈ L.filter fun num => nums.contains num := by
        rw [hPeq]; exact hvL
      have := (List.mem_filter.mp hvP).2
      simpa using this
    · rw [← hL, ← hPeq]; exact hsum
  · rintro ⟨hocc, hmem, hsum⟩
    have hLc : L.length = c.length :=
      (length_filterMap_eq_iff (fun i => board.getD i none) c).mpr hocc
    have hL3 : L.length = 3 := hLc.trans hc
    have hPeq : L.filter (fun num => nums.contains num) = L := by
      rw [List.filter_eq_self]
      intro v hv
      rcases List.mem_filterMap.mp hv with ⟨i, hi, hfi⟩
      simpa using hmem i hi v hfi
    rw [hPeq, hL3]
    exact ⟨rfl, hsum⟩

/-- a make_move call on which some guard fires returns the state unchanged. -/
theorem make_move_of_error (rm rn index : Nat) (s : GameState) (e : MoveError)
    (h : make_move_error s index = some e) : make_move rm rn index s = s := by
  unfold make_move_error at h
  unfold make_move
  by_cases h1 : s.winner.isSome
  · rw [if_pos h1]
  · rw [if_neg h1] at h
    rw [if_neg h1]
    by_cases h2 : s.selected_number = none
    · rw [if_pos h2]
    · rw [if_neg h2] at h
      rw [if_neg h2]
      by_cases h3 : (s.board.getD index none).isSome
      · rw [if_pos h3]
      · rw [if_neg h3] at h
        cases h

/-- a select_number call on which some guard fires returns the state
unchanged. -/
theorem select_number_of_error (number : Nat) (s : GameState) (e : SelectError)
    (h : select_number_error s number = some e) : select_number number s = s := by
  unfold select_number_error at h
  unfold select_number
  by_cases h1 : s.used_numbers.contains number
  · rw [if_pos h1]
  · rw [if_neg h1] at h
    rw [if_neg h1]
    by_cases h2 : s.winner.isSome
    · rw [if_pos h2]
    · rw [if_neg h2] at h
      cases h

/-- unfolding of make_move on a validated placement: guards passed, the
placement is applied, termination is evaluated, and the mode dispatch of
lines 152-157 runs. -/
theorem make_move_eq (rm rn index : Nat) (s : GameState) (n : Nat)
    (hw : s.winner = none) (hsel : s.selected_number = some n)
    (hocc : s.board.getD index none = none) :
    make_move rm rn index s =
      (let s1 : GameState := { s with
        board := s.board.set index (some n),
        used_numbers := s.used_numbers ++ [n],
        player1_numbers :=
          if s.current_player = Player.P1 then s.player1_numbers ++ [n]
          else s.player1_numbers,
        player2_numbers :=
          if s.current_player = Player.P1 then s.player2_numbers
          else s.player2_numbers ++ [n],
        selected_number := none }
      let s2 : GameState :=
        if check_winner s1.board s1.player1_numbers s1.target1 then
          { s1 with winner := some Winner.player1Wins }
        else if check_winner s1.board s1.player2_numbers s1.target2 then
          { s1 with winner := some Winner.player2Wins }
        else if s1.used_numbers.length == 9 then
          { s1 with winner := some Winner.draw }
        else
          { s1 with current_player :=
              if s.current_player = Player.P1 then Player.P2 else Player.P1 }
      if s2.game_mode = Mode.computer ∧ s2.winner = none then
        computer_move rm rn s2
      else s2) := by
  unfold make_move
  have c1 : ¬ (s.winner.isSome = true) := by rw [hw]; simp
  rw [if_neg c1]
  have c2 : ¬ (s.selected_number = none) := by rw [hsel]; simp
  rw [if_neg c2]
  have c3 : ¬ ((s.board.getD index none).isSome = true) := by rw [hocc]; simp
  rw [if_neg c3, hsel]
  rfl

/-- unfolding of computer_move in the branch where a candidate cell and a
candidate digit exist: the chosen digit is placed and termination is
evaluated. -/
theorem computer_move_eq (rm rn : Nat) (s : GameState)
    (hw : s.winner = none) (hm : available_moves s ≠ [])
    (hn : available_numbers s ≠ []) :
    computer_move rm rn s =
      (let move_index :=
        (available_moves s).getD (rm % (available_moves s).length) 0
       let chosen_number :=
        (available_numbers s).getD (rn % (available_numbers s).length) 0
       let s1 : GameState := { s with
         board := s.board.set move_index (some chosen_number),
         used_numbers := s.used_numbers ++ [chosen_number],
         player2_numbers := s.player2_numbers ++ [chosen_number] }
       if check_winner s1.board s1.player2_numbers s1.target2 then
         { s1 with winner := some Winner.computerWins }
       else if s1.used_numbers.length == 9 then
         { s1 with winner := some Winner.draw }
       else
         { s1 with current_player := Player.P1 }) := by
  unfold computer_move
  rw [hw]
  simp [hm, hn]

/-- unfolding of computer_move when no cell or no digit remains: the game
is declared a draw. -/
theorem computer_move_draw (rm rn : Nat) (s : GameState)
    (hw : s.winner = none)
    (hmn : available_moves s = [] ∨ available_numbers s = []) :
    computer_move rm rn s = { s with winner := some Winner.draw } := by
  unfold computer_move
  rw [hw]
  have : ¬(available_moves s ≠ [] ∧ available_numbers s ≠ []) := by
    rcases hmn with h | h <;> simp [h]
  simp [this]

/-- computer_move returns immediately when a winner is already set. -/
theorem computer_move_won (rm rn : Nat) (s : GameState)
    (hw : s.winner.isSome = true) : computer_move rm rn s = s := by
  unfold computer_move
  simp [hw]

/-- membership in computer_move's empty-cell candidate list. -/
theorem mem_available_moves (s : GameState) (i : Nat) :
    i ∈ available_moves s ↔ i < s.board.length ∧ s.board.getD i none = none := by
  unfold available_moves
  rw [List.mem_filter, List.mem_range]
  simp

/-- membership in computer_move's unused-digit candidate list. -/
theorem mem_available_numbers (s : GameState) (d : Nat) :
    d ∈ available_numbers s ↔ 1 ≤ d ∧ d < 10 ∧ d ∉ s.used_numbers := by
  unfold available_numbers
  rw [List.mem_filter, List.mem_range'_1]
  constructor
  · rintro ⟨⟨h1, h2⟩, h3⟩
    refine ⟨h1, by omega, fun hmem => ?_⟩
    simp [hmem] at h3
  · rintro ⟨h1, h2, h3⟩
    exact ⟨⟨h1, by omega⟩, by simp [h3]⟩

/-- reading back the cell a set just wrote. -/
theorem getD_set_self {α : Type} (l : List α) (i : Nat) (a d : α)
    (h : i < l.length) : (l.set i a).getD i d = a := by
  rw [List.getD_eq_getElem _ _ (by simpa using h)]
  exact List.getElem_set_self (by simpa using h)

/-- a structurally malformed snapshot: the out-of-range digit 42 sits on
the board while the used pool and both player sequences are empty, so
the §3 invariants fail. -/
def badSnapshot : GameState :=
  { initialGameState with
    board := [some 42, none, none, none, none, none, none, none, none] }

/-- a local multiplayer state joined to room game_4521. -/
def sRoom : GameState :=
  { initialGameState with
    game_mode := Mode.player,
    room_id := some "game_4521",
    player_role := some Role.host }

/-- Claim C1: for every board state, player placed-digit set and target
sum, check_winner returns true iff at least one of the eight fixed lines
has all three cells occupied, all three occupying values in that
player's placed-digit set, and those values summing to the player's
target; in particular a mixed line whose occupied values coincidentally
sum to the target is never reported as a win. -/
theorem c1_check_winner_iff (board : List (Option Nat)) (nums : List Nat)
    (t : Nat) (hb : board.length = 9) :
    check_winner board nums t = true ↔
      ∃ c ∈ winConditions, lineIsWin board nums t c := by
  unfold check_winner
  rw [List.any_eq_true]
  have hlen3 : ∀ c ∈ winConditions, c.length = 3 := by
    intro c hcmem
    simp only [winConditions, List.mem_cons, List.mem_singleton,
      List.not_mem_nil, or_false] at hcmem
    rcases hcmem with rfl | rfl | rfl | rfl | rfl | rfl | rfl | rfl <;> rfl
  constructor
  · rintro ⟨c, hcmem, hcb⟩
    refine ⟨c, hcmem, ?_⟩
    rw [← line_check_iff board nums t c (hlen3 c hcmem)]
    simpa [Bool.and_eq_true, beq_iff_eq] using hcb
  · rintro ⟨c, hcmem, hcw⟩
    refine ⟨c, hcmem, ?_⟩
    rw [← line_check_iff board nums t c (hlen3 c hcmem)] at hcw
    simpa [Bool.and_eq_true, beq_iff_eq] using hcw

/-- Witness for C1 at a concrete input: the board 9,6,1 across the top
row with all three digits owned by the player is a 16-win, and the
spec-side line predicate holds of the top row there. -/
theorem c1_check_winner_iff_witness :
    ([some 9, some 6, some 1, none, none, none, none, none, none] :
        List (Option Nat)).length = 9 ∧
    (check_winner [some 9, some 6, some 1, none, none, none, none, none, none]
        [9, 6, 1] 16 = true ↔
      ∃ c ∈ winConditions,
        lineIsWin [some 9, some 6, some 1, none, none, none, none, none, none]
          [9, 6, 1] 16 c) :=
  ⟨by decide,
   c1_check_winner_iff [some 9, some 6, some 1, none, none, none, none, none, none]
     [9, 6, 1] 16 (by decide)⟩

/-- a finished game with an occupied corner cell: make_move's game-over
guard fires before the occupied-cell guard does. -/
def cexWonOccupied : GameState :=
  { initialGameState with
    board := [some 5, none, none, none, none, none, none, none, none],
    used_numbers := [5],
    player1_numbers := [5],
    winner := some Winner.player1Wins }

/-- Counterexample to C3 as stated: in a state whose winner is already
set, placing on the occupied cell 0 is rejected by the game-over guard,
not with CellOccupied. -/
theorem c3_counterexample :
    (cexWonOccupied.board.getD 0 none).isSome = true ∧
    make_move_error cexWonOccupied 0 = some MoveError.gameOver ∧
    make_move_error cexWonOccupied 0 ≠ some MoveError.cellOccupied ∧
    make_move 0 0 0 cexWonOccupied = cexWonOccupied := by decide

/-- Claim C3 (amended): every failed operation leaves the game state
unchanged; placeMove on an occupied index always fails and changes
nothing, and the failure is CellOccupied whenever the game is not
already over and a number is selected (the GameOver and NoSelection
guards take precedence otherwise); selectNumber with an already-used
digit or after the game is over likewise changes nothing. -/
theorem c3_atomic_failures (s : GameState) (rm rn index num : Nat) :
    (∀ e : MoveError, make_move_error s index = some e →
      make_move rm rn index s = s) ∧
    ((s.board.getD index none).isSome = true →
      make_move rm rn index s = s ∧ make_move_error s index ≠ none) ∧
    (s.winner = none → s.selected_number ≠ none →
      (s.board.getD index none).isSome = true →
      make_move_error s index = some MoveError.cellOccupied) ∧
    (∀ e : SelectError, select_number_error s num = some e →
      select_number num s = s) ∧
    (num ∈ s.used_numbers → select_number num s = s) ∧
    (s.winner ≠ none → select_number num s = s) := by
  refine ⟨fun e he => make_move_of_error rm rn index s e he, ?_, ?_,
    fun e he => select_number_of_error num s e he, ?_, ?_⟩
  · intro hocc
    have herr : make_move_error s index ≠ none := by
      unfold make_move_error
      by_cases h1 : s.winner.isSome
      · rw [if_pos h1]; exact Option.some_ne_none _
      · rw [if_neg h1]
        by_cases h2 : s.selected_number = none
        · rw [if_pos h2]; exact Option.some_ne_none _
        · rw [if_neg h2, if_pos hocc]; exact Option.some_ne_none _
    rcases he : make_move_error s index with _ | e
    · exact absurd he herr
    · exact ⟨make_move_of_error rm rn index s e he, Option.some_ne_none e⟩
  · intro hw hsel hocc
    unfold make_move_error
    rw [if_neg (by rw [hw]; simp), if_neg hsel, if_pos hocc]
  · intro hmem
    unfold select_number
    rw [if_pos (by simpa using hmem)]
  · intro hw
    unfold select_number
    by_cases h1 : s.used_numbers.contains num
    · rw [if_pos h1]
    · rw [if_neg h1,
        if_pos (Option.isSome_iff_ne_none.mpr hw)]

/-- a live game whose cell 0 is occupied by the opponent's 7 while 5 is
selected: the occupied-cell guard is the one that fires. -/
def cexOccupied : GameState :=
  { initialGameState with
    board := [some 7, none, none, none, none, none, none, none, none],
    used_numbers := [7],
    player2_numbers := [7],
    selected_number := some 5 }

/-- Witness for C3 (amended) at a concrete input: the occupied placement
is rejected with CellOccupied and the state is unchanged, and selecting
the used digit 7 is likewise a no-op. -/
theorem c3_atomic_failures_witness :
    (cexOccupied.board.getD 0 none).isSome = true ∧
    make_move_error cexOccupied 0 = some MoveError.cellOccupied ∧
    make_move 0 0 0 cexOccupied = cexOccupied ∧
    select_number 7 cexOccupied = cexOccupied := by
  refine ⟨by decide, ?_, ?_, ?_⟩
  · exact (c3_atomic_failures cexOccupied 0 0 0 7).2.2.1 (by decide)
      (by decide) (by decide)
  · exact (c3_atomic_failures cexOccupied 0 0 0 7).1
      MoveError.cellOccupied (by decide)
  · exact (c3_atomic_failures cexOccupied 0 0 0 7).2.2.2.2.1 (by decide)

/-- Counterexample to C6 as stated: in the initial state it is Player
1's (a human's) turn and the game is live, yet computer_move does not
fail unchanged — it goes ahead and moves for Player 2. -/
theorem c6_counterexample :
    initialGameState.current_player = Player.P1 ∧
    initialGameState.winner = none ∧
    computer_move 0 0 initialGameState ≠ initialGameState := by decide

/-- Claim C6 (amended): computer_move performs no turn-ownership check
at all: it leaves the state unchanged exactly when a winner is already
set; in every live state — even when it is not the computer's turn — it
mutates the state (placing a digit for Player 2 or declaring a draw). -/
theorem c6_no_turn_guard (s : GameState) (rm rn : Nat) :
    computer_move rm rn s = s ↔ s.winner.isSome = true := by
  constructor
  · intro h
    by_contra hw
    have hwn : s.winner = none := by
      cases hws : s.winner
      · rfl
      · rw [hws] at hw; simp at hw
    by_cases hmn : available_moves s ≠ [] ∧ available_numbers s ≠ []
    · obtain ⟨hm, hn⟩ := hmn
      rw [computer_move_eq rm rn s hwn hm hn] at h
      have hmem : (available_moves s).getD
          (rm % (available_moves s).length) 0 ∈ available_moves s :=
        getD_mod_mem _ 0 rm hm
      obtain ⟨hlt, hcell⟩ := (mem_available_moves s _).mp hmem
      have hboard : (s.board.set
          ((available_moves s).getD (rm % (available_moves s).length) 0)
          (some ((available_numbers s).getD
            (rn % (available_numbers s).length) 0))) = s.board := by
        simp only at h
        split at h
        · exact congrArg GameState.board h
        · split at h
          · exact congrArg GameState.board h
          · exact congrArg GameState.board h
      have hread : (s.board.set
          ((available_moves s).getD (rm % (available_moves s).length) 0)
          (some ((available_numbers s).getD
            (rn % (available_numbers s).length) 0))).getD
          ((available_moves s).getD (rm % (available_moves s).length) 0) none =
          s.board.getD
            ((available_moves s).getD (rm % (available_moves s).length) 0)
            none := by
        rw [hboard]
      rw [getD_set_self _ _ _ _ hlt, hcell] at hread
      cases hread
    · have hmn2 : available_moves s = [] ∨ available_numbers s = [] := by
        by_cases h1 : available_moves s = []
        · exact Or.inl h1
        · by_cases h2 : available_numbers s = []
          · exact Or.inr h2
          · exact absurd ⟨h1, h2⟩ hmn
      rw [computer_move_draw rm rn s hwn hmn2] at h
      have := congrArg GameState.winner h
      simp only at this
      rw [hwn] at this
      cases this
  · intro h
    exact computer_move_won rm rn s h

/-- Claim C8: reset_game returns the game to the initial configuration —
empty board, empty used-number pool, empty player digit sequences, no
selection, no winner, Player 1 to move, targets 16 and 14 — while
keeping game_mode, room_id and player_role from the old state (so a
VsPlayer game with its room id keeps both). -/
theorem c8_reset_frame (s : GameState) :
    (reset_game s).board = List.replicate 9 none ∧
    (reset_game s).used_numbers = [] ∧
    (reset_game s).player1_numbers = [] ∧
    (reset_game s).player2_numbers = [] ∧
    (reset_game s).selected_number = none ∧
    (reset_game s).winner = none ∧
    (reset_game s).current_player = Player.P1 ∧
    (reset_game s).target1 = 16 ∧
    (reset_game s).target2 = 14 ∧
    (reset_game s).game_mode = s.game_mode ∧
    (reset_game s).room_id = s.room_id ∧
    (reset_game s).player_role = s.player_role ∧
    InvClaim (reset_game s) := by
  refine ⟨rfl, rfl, rfl, rfl, rfl, rfl, rfl, rfl, rfl, rfl, rfl, rfl, ?_, ?_⟩
  · intro d
    simp [reset_game, boardDigits]
  · simp [reset_game, boardDigits]

/-- Claim C10: computer_move is total on live states: when an empty cell
and an unused digit both exist it places an unused digit 1-9 onto an
empty cell (its random choices always hit the candidate lists), and when
either candidate list is empty it declares a draw instead of failing. -/
theorem c10_computer_move_total (s : GameState) (rm rn : Nat)
    (hw : s.winner = none) :
    (available_moves s ≠ [] → available_numbers s ≠ [] →
      ∃ i d, i < s.board.length ∧ s.board.getD i none = none ∧
        1 ≤ d ∧ d < 10 ∧ d ∉ s.used_numbers ∧
        (computer_move rm rn s).board = s.board.set i (some d) ∧
        (computer_move rm rn s).used_numbers = s.used_numbers ++ [d] ∧
        (computer_move rm rn s).player2_numbers = s.player2_numbers ++ [d]) ∧
    (available_moves s = [] ∨ available_numbers s = [] →
      (computer_move rm rn s).winner = some Winner.draw) := by
  constructor
  · intro hm hn
    obtain ⟨hilt, hicell⟩ := (mem_available_moves s _).mp
      (getD_mod_mem (available_moves s) 0 rm hm)
    obtain ⟨hd1, hd2, hd3⟩ := (mem_available_numbers s _).mp
      (getD_mod_mem (available_numbers s) 0 rn hn)
    refine ⟨(available_moves s).getD (rm % (available_moves s).length) 0,
      (available_numbers s).getD (rn % (available_numbers s).length) 0,
      hilt, hicell, hd1, hd2, hd3, ?_, ?_, ?_⟩ <;>
      rw [computer_move_eq rm rn s hw hm hn] <;> simp only <;>
      split <;> first | rfl | split <;> rfl
  · intro hmn
    rw [computer_move_draw rm rn s hw hmn]

/-- on a live state, computer_move either ends the game or hands the turn
back to Player 1, having consumed exactly one more digit. -/
theorem computer_move_cases (rm rn : Nat) (t : GameState)
    (hwt : t.winner = none) :
    (computer_move rm rn t).winner ≠ none ∨
    ((computer_move rm rn t).current_player = Player.P1 ∧
     (computer_move rm rn t).used_numbers.length =
       t.used_numbers.length + 1) := by
  by_cases hmn : available_moves t ≠ [] ∧ available_numbers t ≠ []
  · obtain ⟨hm, hn⟩ := hmn
    rw [computer_move_eq rm rn t hwt hm hn]
    simp only
    split
    · left; simp
    · split
      · left; simp
      · right
        exact ⟨rfl, by simp⟩
  · have hmn2 : available_moves t = [] ∨ available_numbers t = [] := by
      tauto
    rw [computer_move_draw rm rn t hwt hmn2]
    left; simp

/-- a computer_move from a live state that leaves the game live has
handed the turn to Player 1 and consumed exactly one digit. -/
theorem computer_move_reply (rm rn : Nat) (t : GameState)
    (hwt : t.winner = none)
    (hres : (computer_move rm rn t).winner = none) :
    (computer_move rm rn t).current_player = Player.P1 ∧
    (computer_move rm rn t).used_numbers.length =
      t.used_numbers.length + 1 := by
  rcases computer_move_cases rm rn t hwt with hno | hok
  · exact absurd hres hno
  · exact hok

/-- Claim C9: in vs-computer mode, a validated human placement that does
not end the game triggers the computer's reply inside the same
make_move call: whenever the resulting state is still live, it is
Player 1's turn again and exactly two digits (the human's and the
computer's) were consumed. -/
theorem c9_computer_autoreply (s : GameState) (rm rn index n : Nat)
    (hmode : s.game_mode = Mode.computer) (hw : s.winner = none)
    (hsel : s.selected_number = some n) (hocc : s.board.getD index none = none)
    (hidx : index < s.board.length) :
    (make_move rm rn index s).winner = none →
      (make_move rm rn index s).current_player = Player.P1 ∧
      (make_move rm rn index s).used_numbers.length =
        s.used_numbers.length + 2 := by
  rw [make_move_eq rm rn index s n hw hsel hocc]
  simp only
  split <;>
  · split
    · intro hres
      rw [if_neg (by simp)] at hres
      simp at hres
    · split
      · intro hres
        rw [if_neg (by simp)] at hres
        simp at hres
      · split
        · intro hres
          rw [if_neg (by simp)] at hres
          simp at hres
        · intro hres
          rw [if_pos (by simp [hmode, hw])] at hres ⊢
          have h2 := computer_move_reply rm rn _ (by simp [hw]) hres
          refine ⟨h2.1, ?_⟩
          have h3 := h2.2
          simpa using h3

/-- the used-number count tracks the occupied-cell count, so after a
placement the draw test of line 144 is exactly board fullness. -/
theorem full_after_set_iff (s : GameState) (index n : Nat)
    (hidx : index < s.board.length) (hocc : s.board.getD index none = none)
    (hb9 : s.board.length = 9)
    (hlen : s.used_numbers.length = (s.board.filterMap id).length) :
    boardFull (s.board.set index (some n)) = true ↔
      (s.used_numbers ++ [n]).length = 9 := by
  have hpl := (filterMap_id_set_perm s.board index hidx hocc n).length_eq
  rw [boardFull_iff_length, List.length_set, hpl]
  simp only [List.length_cons, List.length_append, List.length_nil]
  omega

/-- Claim C2: after every validated placement, termination is evaluated
in the fixed order of lines 137-150: first, a mover who completed one of
their own lines at their own target wins (when Player 2 is the mover
this requires, as the claim presumes, that Player 1 holds no winning
line); only otherwise, a now-full board is a Draw — so a board-filling
winning move is a win, not a draw; and if neither holds, the turn passes
to the other player, so a full board with no winning line is always a
Draw and never leaves the game non-terminal. -/
theorem c2_termination_order (s : GameState) (rm rn index n : Nat)
    (hw : s.winner = none) (hsel : s.selected_number = some n)
    (hocc : s.board.getD index none = none) (hidx : index < s.board.length)
    (hb9 : s.board.length = 9)
    (hlen : s.used_numbers.length = (s.board.filterMap id).length) :
    (s.current_player = Player.P1 →
      check_winner (s.board.set index (some n)) (s.player1_numbers ++ [n])
        s.target1 = true →
      (make_move rm rn index s).winner = some Winner.player1Wins) ∧
    (s.current_player = Player.P2 →
      check_winner (s.board.set index (some n)) s.player1_numbers
        s.target1 = false →
      check_winner (s.board.set index (some n)) (s.player2_numbers ++ [n])
        s.target2 = true →
      (make_move rm rn index s).winner = some Winner.player2Wins) ∧
    (check_winner (s.board.set index (some n))
        (if s.current_player = Player.P1 then s.player1_numbers ++ [n]
         else s.player1_numbers) s.target1 = false →
      check_winner (s.board.set index (some n))
        (if s.current_player = Player.P1 then s.player2_numbers
         else s.player2_numbers ++ [n]) s.target2 = false →
      boardFull (s.board.set index (some n)) = true →
      (make_move rm rn index s).winner = some Winner.draw) ∧
    (s.game_mode = Mode.player →
      check_winner (s.board.set index (some n))
        (if s.current_player = Player.P1 then s.player1_numbers ++ [n]
         else s.player1_numbers) s.target1 = false →
      check_winner (s.board.set index (some n))
        (if s.current_player = Player.P1 then s.player2_numbers
         else s.player2_numbers ++ [n]) s.target2 = false →
      boardFull (s.board.set index (some n)) = false →
      (make_move rm rn index s).winner = none ∧
      (make_move rm rn index s).current_player =
        (if s.current_player = Player.P1 then Player.P2 else Player.P1)) := by
  rw [make_move_eq rm rn index s n hw hsel hocc]
  simp only
  have hfull := full_after_set_iff s index n hidx hocc hb9 hlen
  refine ⟨?_, ?_, ?_, ?_⟩
  · intro hcur hwin
    simp only [if_pos hcur]
    simp [hwin]
  · intro hcur hnot1 hwin
    have hne : ¬ (s.current_player = Player.P1) := by rw [hcur]; simp
    simp only [if_neg hne]
    simp [hnot1, hwin]
  · intro hnot1 hnot2 hfullb
    have h9 : (s.used_numbers ++ [n]).length = 9 := hfull.mp hfullb
    have h8 : s.used_numbers.length = 8 := by
      simp only [List.length_append, List.length_cons, List.length_nil] at h9
      omega
    by_cases hcur : s.current_player = Player.P1 <;>
      [simp only [if_pos hcur] at hnot1 hnot2 ⊢;
       simp only [if_neg hcur] at hnot1 hnot2 ⊢] <;>
      simp [hnot1, hnot2, h8]
  · intro hmode hnot1 hnot2 hfullb
    have h9 : (s.used_numbers ++ [n]).length ≠ 9 := fun hh => by
      rw [← hfull] at hh
      rw [hh] at hfullb
      cases hfullb
    have h8 : s.used_numbers.length ≠ 8 := fun hh => by
      apply h9
      simp only [List.length_append, List.length_cons, List.length_nil]
      omega
    by_cases hcur : s.current_player = Player.P1 <;>
      [simp only [if_pos hcur] at hnot1 hnot2 ⊢;
       simp only [if_neg hcur] at hnot1 hnot2 ⊢] <;>
      simp [hnot1, hnot2, h8, hmode, hw]

/-- when none of make_move's guards fires, the game is live, a number is
selected, and the target cell is empty. -/
theorem make_move_error_none (s : GameState) (index : Nat)
    (h : make_move_error s index = none) :
    s.winner = none ∧ (∃ n, s.selected_number = some n) ∧
      s.board.getD index none = none := by
  unfold make_move_error at h
  by_cases h1 : s.winner.isSome
  · rw [if_pos h1] at h; cases h
  · rw [if_neg h1] at h
    by_cases h2 : s.selected_number = none
    · rw [if_pos h2] at h; cases h
    · rw [if_neg h2] at h
      by_cases h3 : (s.board.getD index none).isSome
      · rw [if_pos h3] at h; cases h
      · refine ⟨?_, ?_, ?_⟩
        · cases hwc : s.winner
          · rfl
          · rw [hwc] at h1; simp at h1
        · cases hsc : s.selected_number
          · exact absurd hsc h2
          · exact ⟨_, rfl⟩
        · cases hbc : s.board.getD index none
          · rfl
          · rw [hbc] at h3; simp at h3

/-- the iff between pool and board survives placing a fresh digit. -/
theorem used_iff_board_after_place (used bd1 : List Nat) (c : Nat)
    (bd2 : List Nat) (hperm : bd2.Perm (c :: bd1))
    (h : ∀ d, d ∈ used ↔ d ∈ bd1) :
    ∀ d, d ∈ used ++ [c] ↔ d ∈ bd2 := by
  intro d
  rw [List.mem_append, List.mem_singleton, hperm.mem_iff, List.mem_cons, h d]
  tauto

/-- the players-cover-the-board permutation survives Player 2 placing a
digit. -/
theorem players_perm_after_place (p1 p2 bd1 bd2 : List Nat) (c : Nat)
    (hperm : bd2.Perm (c :: bd1)) (h : (p1 ++ p2).Perm bd1) :
    (p1 ++ (p2 ++ [c])).Perm bd2 := by
  have h1 : p1 ++ (p2 ++ [c]) = (p1 ++ p2) ++ [c] :=
    (List.append_assoc p1 p2 [c]).symm
  rw [h1]
  exact ((List.perm_append_singleton c (p1 ++ p2)).trans (h.cons c)).trans
    hperm.symm

/-- the players-cover-the-board permutation survives Player 1 placing a
digit. -/
theorem players_perm_after_place_p1 (p1 p2 bd1 bd2 : List Nat) (c : Nat)
    (hperm : bd2.Perm (c :: bd1)) (h : (p1 ++ p2).Perm bd1) :
    ((p1 ++ [c]) ++ p2).Perm bd2 := by
  have h1 : ((p1 ++ [c]) ++ p2).Perm ((p1 ++ p2) ++ [c]) := by
    rw [List.append_assoc, List.append_assoc]
    exact List.Perm.append_left p1 List.perm_append_comm
  exact (h1.trans ((List.perm_append_singleton c (p1 ++ p2)).trans
    (h.cons c))).trans hperm.symm

/-- selecting a number never touches the board, the pool or the player
sequences, so it preserves the claimed invariants. -/
theorem InvClaim_select (num : Nat) (s : GameState) (h : InvClaim s) :
    InvClaim (select_number num s) := by
  unfold select_number
  split
  · exact h
  · split
    · exact h
    · exact h

/-- computer_move preserves the claimed invariants. -/
theorem InvClaim_computer (rm rn : Nat) (s : GameState) (h : InvClaim s) :
    InvClaim (computer_move rm rn s) := by
  by_cases hw : s.winner.isSome
  · rw [computer_move_won rm rn s hw]; exact h
  · have hwn : s.winner = none := by
      cases hwc : s.winner
      · rfl
      · rw [hwc] at hw; simp at hw
    by_cases hmn : available_moves s ≠ [] ∧ available_numbers s ≠ []
    · obtain ⟨hm, hn⟩ := hmn
      rw [computer_move_eq rm rn s hwn hm hn]
      simp only
      obtain ⟨hilt, hicell⟩ := (mem_available_moves s _).mp
        (getD_mod_mem (available_moves s) 0 rm hm)
      have hperm := filterMap_id_set_perm s.board _ hilt hicell
        ((available_numbers s).getD (rn % (available_numbers s).length) 0)
      have hiff := used_iff_board_after_place s.used_numbers (boardDigits s)
        ((available_numbers s).getD (rn % (available_numbers s).length) 0)
        _ hperm h.1
      have hpp := players_perm_after_place s.player1_numbers s.player2_numbers
        (boardDigits s) _
        ((available_numbers s).getD (rn % (available_numbers s).length) 0)
        hperm h.2
      split
      · exact ⟨hiff, hpp⟩
      · split
        · exact ⟨hiff, hpp⟩
        · exact ⟨hiff, hpp⟩
    · have hmn2 : available_moves s = [] ∨ available_numbers s = [] := by
        tauto
      rw [computer_move_draw rm rn s hwn hmn2]
      exact h

/-- the mode dispatch at the end of make_move preserves the claimed
invariants. -/
theorem InvClaim_dispatch (rm rn : Nat) (t : GameState) (h : InvClaim t) :
    InvClaim (if t.game_mode = Mode.computer ∧ t.winner = none then
      computer_move rm rn t else t) := by
  split
  · exact InvClaim_computer rm rn t h
  · exact h

/-- make_move preserves the claimed invariants. -/
theorem InvClaim_make (rm rn index : Nat) (s : GameState)
    (hidx : index < s.board.length) (h : InvClaim s) :
    InvClaim (make_move rm rn index s) := by
  rcases he : make_move_error s index with _ | e
  case some => rw [make_move_of_error rm rn index s e he]; exact h
  case none =>
    obtain ⟨hw, ⟨n, hsel⟩, hocc⟩ := make_move_error_none s index he
    rw [make_move_eq rm rn index s n hw hsel hocc]
    simp only
    have hperm := filterMap_id_set_perm s.board index hidx hocc n
    have hiff := used_iff_board_after_place s.used_numbers (boardDigits s) n
      _ hperm h.1
    by_cases hcur : s.current_player = Player.P1
    · simp only [if_pos hcur]
      have hpp := players_perm_after_place_p1 s.player1_numbers
        s.player2_numbers (boardDigits s) _ n hperm h.2
      apply InvClaim_dispatch
      split
      · exact ⟨hiff, hpp⟩
      · split
        · exact ⟨hiff, hpp⟩
        · split
          · exact ⟨hiff, hpp⟩
          · exact ⟨hiff, hpp⟩
    · simp only [if_neg hcur]
      have hpp := players_perm_after_place s.player1_numbers
        s.player2_numbers (boardDigits s) _ n hperm h.2
      apply InvClaim_dispatch
      split
      · exact ⟨hiff, hpp⟩
      · split
        · exact ⟨hiff, hpp⟩
        · split
          · exact ⟨hiff, hpp⟩
          · exact ⟨hiff, hpp⟩

/-- Claim C5: every operation — selectNumber, placeMove, computerMove and
reset — preserves the §3 invariants: a digit is in the used-number pool
iff it appears on the board, and the two players' placed sequences
together are exactly the multiset of non-empty board cells. -/
theorem c5_invariant_preservation (s : GameState) (rm rn index num : Nat)
    (h : InvClaim s) (hidx : index < s.board.length) :
    InvClaim (select_number num s) ∧ InvClaim (make_move rm rn index s) ∧
    InvClaim (computer_move rm rn s) ∧ InvClaim (reset_game s) :=
  ⟨InvClaim_select num s h, InvClaim_make rm rn index s hidx h,
   InvClaim_computer rm rn s h,
   ⟨fun d => by simp [reset_game, boardDigits],
    by simp [reset_game, boardDigits]⟩⟩

/-- Witness for C5 at a concrete input: the invariants hold initially and
survive a computer move from the initial state. -/
theorem c5_invariant_preservation_witness :
    InvClaim initialGameState ∧ 0 < initialGameState.board.length ∧
    InvClaim (computer_move 0 0 initialGameState) := by
  have hbd : boardDigits initialGameState = [] := rfl
  have hi : InvClaim initialGameState :=
    ⟨fun d => by rw [hbd]; simp [initialGameState],
     by rw [hbd]; simp [initialGameState]⟩
  exact ⟨hi, by decide,
    (c5_invariant_preservation initialGameState 0 0 0 5 hi (by decide)).2.2.1⟩

/-- Counterexample to C7 as stated: syncing a room absorbs a snapshot
that violates the §3 invariants (digit 42 on the board, empty pool)
without any failure — the local state is wholesale-replaced by the
malformed snapshot instead of being left unchanged. -/
theorem c7_counterexample :
    ¬ InvClaim badSnapshot ∧
    get_firebase_game_state (some badSnapshot) sRoom = badSnapshot ∧
    badSnapshot ≠ sRoom :=
  ⟨fun hcl => absurd ((hcl.1 42).mpr (by decide)) (by decide),
   by decide, by decide⟩

/-- Claim C7 (amended): absorbing a remote snapshot performs no
validation at all: whenever a snapshot is fetched it wholesale-replaces
the local game state — malformed or not — with join_room additionally
forcing the room id, VsPlayer mode and joiner role on top of it. -/
theorem c7_no_validation (s inc : GameState) (rid : String) :
    (s.room_id.getD "" ≠ "" → get_firebase_game_state (some inc) s = inc) ∧
    (rid ≠ "" → join_room rid (some inc) s =
      { inc with
        room_id := some rid,
        game_mode := Mode.player,
        player_role := some Role.joiner }) := by
  constructor
  · intro h
    unfold get_firebase_game_state
    rw [if_neg h]
  · intro h
    unfold join_room
    rw [if_neg h]

/-- Witness for C7 (amended) at a concrete input: the malformed snapshot
is absorbed as-is by a sync, and joining a room overwrites the fresh
local state with it. -/
theorem c7_no_validation_witness :
    sRoom.room_id.getD "" ≠ "" ∧
    get_firebase_game_state (some badSnapshot) sRoom = badSnapshot ∧
    join_room "game_9999" (some badSnapshot) initialGameState =
      { badSnapshot with
        room_id := some "game_9999",
        game_mode := Mode.player,
        player_role := some Role.joiner } := by
  refine ⟨by decide, ?_, ?_⟩
  · exact (c7_no_validation sRoom badSnapshot "x").1 (by decide)
  · exact (c7_no_validation initialGameState badSnapshot "game_9999").2
      (by decide)

/-- selecting a number never changes the used-number pool. -/
theorem select_used (num : Nat) (s : GameState) :
    (select_number num s).used_numbers = s.used_numbers := by
  unfold select_number
  split
  · rfl
  · split <;> rfl

/-- computer_move only ever appends to the used-number pool. -/
theorem computer_used_extend (rm rn : Nat) (s : GameState) :
    ∃ u, (computer_move rm rn s).used_numbers = s.used_numbers ++ u := by
  by_cases hw : s.winner.isSome
  · rw [computer_move_won rm rn s hw]
    exact ⟨[], by simp⟩
  · have hwn : s.winner = none := Option.not_isSome_iff_eq_none.mp hw
    by_cases hmn : available_moves s ≠ [] ∧ available_numbers s ≠ []
    · obtain ⟨hm, hn⟩ := hmn
      rw [computer_move_eq rm rn s hwn hm hn]
      simp only
      split
      · exact ⟨_, rfl⟩
      · split
        · exact ⟨_, rfl⟩
        · exact ⟨_, rfl⟩
    · have hmn2 : available_moves s = [] ∨ available_numbers s = [] := by
        tauto
      rw [computer_move_draw rm rn s hwn hmn2]
      exact ⟨[], by simp⟩

/-- the mode dispatch of make_move only ever appends to a pool that
already extends the original one. -/
theorem dispatch_used_extend (rm rn : Nat) (t2 : GameState)
    (base : List Nat) (hb : ∃ u0, t2.used_numbers = base ++ u0) :
    ∃ u, (if t2.game_mode = Mode.computer ∧ t2.winner = none then
      computer_move rm rn t2 else t2).used_numbers = base ++ u := by
  obtain ⟨u0, hu0⟩ := hb
  split
  · obtain ⟨u1, hu1⟩ := computer_used_extend rm rn t2
    exact ⟨u0 ++ u1, by rw [hu1, hu0, List.append_assoc]⟩
  · exact ⟨u0, hu0⟩

/-- make_move only ever appends to the used-number pool. -/
theorem make_used_extend (rm rn index : Nat) (s : GameState) :
    ∃ u, (make_move rm rn index s).used_numbers = s.used_numbers ++ u := by
  rcases he : make_move_error s index with _ | e
  case some =>
    rw [make_move_of_error rm rn index s e he]
    exact ⟨[], by simp⟩
  case none =>
    obtain ⟨hw, ⟨n, hsel⟩, hocc⟩ := make_move_error_none s index he
    rw [make_move_eq rm rn index s n hw hsel hocc]
    simp only
    apply dispatch_used_extend
    refine ⟨[n], ?_⟩
    split <;> (try split) <;> (try split) <;> (try split) <;> rfl

/-- a digit in the pool stays in the pool across any in-game operation. -/
theorem used_mono_op (op : Op) (s : GameState) (d : Nat)
    (hd : d ∈ s.used_numbers) : d ∈ (applyOp op s).used_numbers := by
  cases op with
  | select number =>
    unfold applyOp
    rw [select_used number s]
    exact hd
  | place rm rn index =>
    unfold applyOp
    obtain ⟨u, hu⟩ := make_used_extend rm rn index s
    rw [hu]
    exact List.mem_append_left u hd
  | comp rm rn =>
    unfold applyOp
    obtain ⟨u, hu⟩ := computer_used_extend rm rn s
    rw [hu]
    exact List.mem_append_left u hd

/-- a digit in the pool stays in the pool across any sequence of in-game
operations. -/
theorem used_mono_ops (ops : List Op) :
    ∀ (s : GameState) (d : Nat), d ∈ s.used_numbers →
      d ∈ (applyOps ops s).used_numbers := by
  induction ops with
  | nil => intro s d hd; exact hd
  | cons op rest ih =>
    intro s d hd
    exact ih (applyOp op s) d (used_mono_op op s d hd)

/-- computer_move never re-places a digit that is already in the pool:
the digit's multiplicity in the pool and on the board is unchanged. -/
theorem computer_count_eq (rm rn : Nat) (s : GameState) (d : Nat)
    (hd : d ∈ s.used_numbers) :
    (computer_move rm rn s).used_numbers.count d = s.used_numbers.count d ∧
    (boardDigits (computer_move rm rn s)).count d =
      (boardDigits s).count d := by
  by_cases hw : s.winner.isSome
  · rw [computer_move_won rm rn s hw]
    exact ⟨rfl, rfl⟩
  · have hwn : s.winner = none := Option.not_isSome_iff_eq_none.mp hw
    by_cases hmn : available_moves s ≠ [] ∧ available_numbers s ≠ []
    · obtain ⟨hm, hn⟩ := hmn
      rw [computer_move_eq rm rn s hwn hm hn]
      simp only
      obtain ⟨hilt, hicell⟩ := (mem_available_moves s _).mp
        (getD_mod_mem (available_moves s) 0 rm hm)
      obtain ⟨hd1, hd2, hd3⟩ := (mem_available_numbers s _).mp
        (getD_mod_mem (available_numbers s) 0 rn hn)
      have hne : ((available_numbers s).getD
          (rn % (available_numbers s).length) 0) ≠ d := fun hh =>
        hd3 (hh ▸ hd)
      have hperm := filterMap_id_set_perm s.board _ hilt hicell
        ((available_numbers s).getD (rn % (available_numbers s).length) 0)
      have hbeqf : (((available_numbers s).getD
          (rn % (available_numbers s).length) 0) == d) = false :=
        beq_eq_false_iff_ne.mpr hne
      have hcu : (s.used_numbers ++
          [(available_numbers s).getD
            (rn % (available_numbers s).length) 0]).count d =
          s.used_numbers.count d := by
        rw [List.count_append, List.count_cons, hbeqf]
        simp
      have hcb : ((s.board.set
          ((available_moves s).getD (rm % (available_moves s).length) 0)
          (some ((available_numbers s).getD
            (rn % (available_numbers s).length) 0))).filterMap id).count d =
          (s.board.filterMap id).count d := by
        rw [hperm.count_eq d, List.count_cons, hbeqf]
        simp
      split
      · exact ⟨hcu, hcb⟩
      · split
        · exact ⟨hcu, hcb⟩
        · exact ⟨hcu, hcb⟩
    · have hmn2 : available_moves s = [] ∨ available_numbers s = [] := by
        tauto
      rw [computer_move_draw rm rn s hwn hmn2]
      exact ⟨rfl, rfl⟩

/-- Claim C4: once a digit d is in the used pool it stays there across
every sequence of in-game operations; selectNumber on d is a no-op (d
can never be selected again); computerMove never selects or places d
again (its multiplicity in the pool and on the board is unchanged); and
— the pool being duplicate-free and matching the board — no digit
appears in more than one board cell. -/
theorem c4_digit_permanence (s : GameState) (d : Nat)
    (hd : d ∈ s.used_numbers) :
    (∀ ops : List Op, d ∈ (applyOps ops s).used_numbers) ∧
    select_number d s = s ∧
    (∀ rm rn, (computer_move rm rn s).used_numbers.count d =
        s.used_numbers.count d ∧
      (boardDigits (computer_move rm rn s)).count d =
        (boardDigits s).count d) ∧
    (s.used_numbers.Perm (boardDigits s) → s.used_numbers.Nodup →
      (boardDigits s).Nodup) := by
  refine ⟨fun ops => used_mono_ops ops s d hd, ?_,
    fun rm rn => computer_count_eq rm rn s d hd,
    fun hp hn => hp.nodup hn⟩
  unfold select_number
  rw [if_pos (by simpa using hd)]

/-- a position where the digit 5 is already placed at cell 0 by
Player 1. -/
def cexUsed5 : GameState :=
  { initialGameState with
    board := [some 5, none, none, none, none, none, none, none, none],
    used_numbers := [5],
    player1_numbers := [5],
    current_player := Player.P2 }

/-- Witness for C4 at a concrete input: with 5 already on the board,
selecting 5 again is a no-op, 5 stays used after further operations, and
the computer's reply does not duplicate it. -/
theorem c4_digit_permanence_witness :
    5 ∈ cexUsed5.used_numbers ∧
    select_number 5 cexUsed5 = cexUsed5 ∧
    5 ∈ (applyOps [Op.comp 0 0, Op.select 3] cexUsed5).used_numbers ∧
    (computer_move 0 0 cexUsed5).used_numbers.count 5 =
      cexUsed5.used_numbers.count 5 := by
  refine ⟨by decide, ?_, ?_, ?_⟩
  · exact (c4_digit_permanence cexUsed5 5 (by decide)).2.1
  · exact (c4_digit_permanence cexUsed5 5 (by decide)).1
      [Op.comp 0 0, Op.select 3]
  · exact ((c4_digit_permanence cexUsed5 5 (by decide)).2.2.1 0 0).1

/-- a mid-game position realizing spec Scenario B: Player 1 holds 9 and 6
on the top row, Player 2 holds 2 and 3, and Player 1 places the selected
1 at cell 2, completing 9+6+1 = 16. -/
def cexScenarioB : GameState :=
  { initialGameState with
    board := [some 9, some 6, none, some 2, some 3, none, none, none, none],
    player1_numbers := [9, 6],
    player2_numbers := [2, 3],
    used_numbers := [9, 2, 6, 3],
    selected_number := some 1,
    game_mode := Mode.player }

/-- Witness for C2 at a concrete input: completing the top row at target
16 makes Player 1 win immediately upon the placement. -/
theorem c2_termination_order_witness :
    (cexScenarioB.winner = none ∧ cexScenarioB.selected_number = some 1 ∧
      cexScenarioB.board.getD 2 none = none ∧
      cexScenarioB.current_player = Player.P1 ∧
      check_winner (cexScenarioB.board.set 2 (some 1))
        (cexScenarioB.player1_numbers ++ [1]) cexScenarioB.target1 = true) ∧
    (make_move 0 0 2 cexScenarioB).winner = some Winner.player1Wins :=
  ⟨⟨rfl, rfl, rfl, rfl, by decide⟩,
   (c2_termination_order cexScenarioB 0 0 2 1 rfl rfl rfl (by decide)
       (by decide) (by decide)).1 rfl (by decide)⟩

/-- a mid-game vs-computer position used to instantiate C9: Player 1 has
selected 5 and places it on the empty cell 1. -/
def cexVsComputer : GameState :=
  { initialGameState with
    board := [some 7, none, none, none, none, none, none, none, none],
    used_numbers := [7],
    player2_numbers := [7],
    selected_number := some 5 }

/-- Witness for C9 at a concrete input: after the human places 5 the
computer replies within the same call, leaving a live state with Player
1 to move and two more digits consumed. -/
theorem c9_computer_autoreply_witness :
    (cexVsComputer.game_mode = Mode.computer ∧ cexVsComputer.winner = none ∧
      cexVsComputer.selected_number = some 5 ∧
      cexVsComputer.board.getD 1 none = none ∧
      1 < cexVsComputer.board.length) ∧
    (make_move 0 0 1 cexVsComputer).current_player = Player.P1 ∧
    (make_move 0 0 1 cexVsComputer).used_numbers.length =
      cexVsComputer.used_numbers.length + 2 :=
  ⟨⟨rfl, rfl, rfl, rfl, by decide⟩,
   c9_computer_autoreply cexVsComputer 0 0 1 5 rfl rfl rfl rfl (by decide)
     (by decide)⟩

/-- Witness for C10 at a concrete input: in the initial state both
candidate lists are nonempty and the computer's move is a legal
placement of an unused digit on an empty cell. -/
theorem c10_computer_move_total_witness :
    initialGameState.winner = none ∧
    (∃ i d, i < initialGameState.board.length ∧
      initialGameState.board.getD i none = none ∧
      1 ≤ d ∧ d < 10 ∧ d ∉ initialGameState.used_numbers ∧
      (computer_move 0 0 initialGameState).board =
        initialGameState.board.set i (some d) ∧
      (computer_move 0 0 initialGameState).used_numbers =
        initialGameState.used_numbers ++ [d] ∧
      (computer_move 0 0 initialGameState).player2_numbers =
        initialGameState.player2_numbers ++ [d]) :=
  ⟨rfl, (c10_computer_move_total initialGameState 0 0 rfl).1
    (by decide) (by decide)⟩

end TicTacTotal
